import Mathlib

/-!
Shallow embedding of the `HedgeManager` delta-neutral trading engine from
`src/strategy/hedge/hedge.ts` of the perp-dex-toolkit repository.

Modelling conventions:
* TS `number` values are modelled as `ℚ` (the engine's arithmetic is exact
  at spec level; no claim depends on binary-float representation).
* A value produced by JS `parseFloat` may be `NaN`; such values are modelled
  as `JsNum := Option ℚ` with `none` standing for `NaN`.  String fields that
  the engine only ever reads through `parseFloat` (ticker `lastPrice`,
  position `size`) are modelled by their `parseFloat` image.
* Every interaction with an exchange is recorded as an `Event`; the two
  exchanges are the `Venue`s `first` and `second`.  Exchange responses are
  supplied by environment structures (`MarketEnv`, `CloseEnv`, `IterEnv`),
  which stand for the remote state the engine observes; position queries
  are indexed by attempt number because remote positions evolve over time.
* `await sleep(ms)` is recorded as an `Event.sleep ms`.
* A rejected promise / thrown error is an `Except.error`; errors that the
  source catches and merely logs do not alter the control flow (in
  `closePositions` both a successful and a failed close attempt fall
  through to the same `sleep(1000)`/next-attempt continuation, so the
  attempt-level `catch` needs no separate environment flag).
-/

/-- Result of JS `parseFloat`: `none` models `NaN`. -/
def JsNum : Type := Option ℚ

instance : DecidableEq JsNum := inferInstanceAs (DecidableEq (Option ℚ))
instance : Repr JsNum := inferInstanceAs (Repr (Option ℚ))

/-- A concrete (non-`NaN`) JS number. -/
def JsNum.num (q : ℚ) : JsNum := some q

/-- JS comparison `x <= 0`: false when `x` is `NaN`. -/
def jsLe0 : JsNum → Bool
  | none => false
  | some q => decide (q ≤ 0)

/-- JS comparison `x > 0`: false when `x` is `NaN`. -/
def jsGt0 : JsNum → Bool
  | none => false
  | some q => decide (0 < q)

/-- JS division as used after the `lastPrice <= 0` guard: a `NaN` operand
propagates.  (Division by exactly `0` cannot be reached: the guard in
`calculateQuantityFromUSD` rejects every real `lastPrice ≤ 0`.) -/
def jsDiv (a b : JsNum) : JsNum :=
  match a, b with
  | some x, some y => if y = 0 then none else some (x / y)
  | _, _ => none

/-- Rounding of `x` to 6 decimal places, nearest mode — the value denoted by
the TS `quantity.toFixed(6)` string (the engine only ever forwards that
string verbatim). -/
def toFixed6q (x : ℚ) : ℚ := ((round (x * 1000000) : ℤ) : ℚ) / 1000000

/-- JS `Number.prototype.toFixed(6)` lifted to possibly-`NaN` values. -/
def toFixed6 : JsNum → JsNum
  | none => none
  | some q => some (toFixed6q q)

/-- Order side, TS `OrderSide = "buy" | "sell"`. -/
inductive OrderSide where
  | buy
  | sell
deriving DecidableEq, Repr

/-- The two exchange handles of the engine. -/
inductive Venue where
  | first
  | second
deriving DecidableEq, Repr

/-- Venue-agnostic open-position descriptor (the fields the engine reads).
`size` is the `parseFloat` image of the TS string field (`none` = `NaN`,
i.e. a non-numeric size string); `contractId` is `none` when the venue
reported no contract id (TS `undefined`). -/
structure Position where
  symbol : String
  contractId : Option String
  side : OrderSide
  size : JsNum
deriving DecidableEq, Repr

/-- The argument record of `IExchange.placeOrder` as built by the engine.
`price` is the slippage-adjusted number before its `toString`. -/
structure OrderRequest where
  symbol : String
  contractId : String
  side : OrderSide
  ordType : String
  quantity : JsNum
  price : JsNum
  timeInForce : String
  reduceOnly : Bool
deriving DecidableEq, Repr

/-- Observable actions of the engine: exchange interactions, suspensions,
and (for the spec-modelled store integration) trade-record-store calls. -/
inductive Event where
  | resolveContract (v : Venue) (symbol : String)
  | getTicker (v : Venue) (symbol : String)
  | getPosition (v : Venue) (symbol : String)
  | placeOrder (v : Venue) (req : OrderRequest)
  | sleep (ms : ℚ)
  | storeCreate (id : Nat) (symbol : String)
  | storeUpdate (id : Nat)
deriving DecidableEq, Repr

/-- Structure `HedgeConfig` from the source. -/
structure HedgeConfig where
  minSizeUSD : ℚ
  maxSizeUSD : ℚ
  minSleepBetweenOrdersMs : ℚ
  maxSleepBetweenOrdersMs : ℚ
  minHoldTimeMs : ℚ
  maxHoldTimeMs : ℚ
  slippage : ℚ
deriving DecidableEq, Repr

/-- Constant `DEFAULT_HEDGE_CONFIG` from the source. -/
def DEFAULT_HEDGE_CONFIG : HedgeConfig :=
  { minSizeUSD := 100
    maxSizeUSD := 1000
    minSleepBetweenOrdersMs := 1000
    maxSleepBetweenOrdersMs := 5000
    minHoldTimeMs := 30000
    maxHoldTimeMs := 300000
    slippage := 0.02 }

/-- Source `HedgeManager.calculateQuantityFromUSD`: throws on `lastPrice ≤ 0`,
otherwise returns `(sizeUSD / lastPrice).toFixed(6)`.  (The thrown message
interpolates the offending price; the model keeps the fixed prefix.) -/
def calculateQuantityFromUSD (symbol : String) (sizeUSD : ℚ) (lastPrice : JsNum) :
    Except String JsNum :=
  if jsLe0 lastPrice then
    .error ("Invalid price for " ++ symbol)
  else
    .ok (toFixed6 (jsDiv (some sizeUSD) lastPrice))

/-- Source `HedgeManager.calculatePriceWithSlippage` on real (non-`NaN`) numbers. -/
def calculatePriceWithSlippage (price slippage : ℚ) (side : OrderSide) : ℚ :=
  match side with
  | .buy => price * (1 + slippage)
  | .sell => price * (1 - slippage)

/-- Function `calculatePriceWithSlippage` lifted to possibly-`NaN` ticker prices
(`NaN` propagates through JS arithmetic). -/
def applySlippage (price : JsNum) (slippage : ℚ) (side : OrderSide) : JsNum :=
  Option.map (fun q => calculatePriceWithSlippage q slippage side) price

/-- Remote state observed by `placeMarketOrder`: resolved contract ids and
`parseFloat`-images of the two venues' ticker `lastPrice` per symbol. -/
structure MarketEnv where
  contractIds : Venue → String → String
  tickers : Venue → String → JsNum

/-- Source `HedgeManager.placeMarketOrder`.  Returns the placed order pair (or the
thrown error) together with the trace of exchange interactions.  Note that
the submitted sides are the hardcoded `"buy"` (first leg) and `"sell"`
(second leg) of the source; `firstSide`/`secondSide` enter only the two
slippage-adjusted prices, exactly as in the source. -/
def placeMarketOrder (cfg : HedgeConfig) (env : MarketEnv) (symbol : String)
    (sizeUSD : ℚ) (firstSide secondSide : OrderSide) :
    Except String (OrderRequest × OrderRequest) × List Event :=
  if sizeUSD ≤ 0 then
    (.error "sizeUSD must be greater than 0", [])
  else
    let preEvents : List Event :=
      [Event.resolveContract .first symbol, Event.resolveContract .second symbol,
       Event.getTicker .first symbol, Event.getTicker .second symbol]
    match calculateQuantityFromUSD symbol sizeUSD (env.tickers .first symbol) with
    | .error e => (.error e, preEvents)
    | .ok quantity =>
      let firstPrice := applySlippage (env.tickers .first symbol) cfg.slippage firstSide
      let secondPrice := applySlippage (env.tickers .second symbol) cfg.slippage secondSide
      let firstReq : OrderRequest :=
        { symbol := symbol
          contractId := env.contractIds .first symbol
          side := .buy
          ordType := "market"
          quantity := quantity
          price := firstPrice
          timeInForce := "IOC"
          reduceOnly := false }
      let secondReq : OrderRequest :=
        { symbol := symbol
          contractId := env.contractIds .second symbol
          side := .sell
          ordType := "market"
          quantity := quantity
          price := secondPrice
          timeInForce := "IOC"
          reduceOnly := false }
      (.ok (firstReq, secondReq),
       preEvents ++ [Event.placeOrder .first firstReq, Event.placeOrder .second secondReq])

/-- Predicate selecting position-query events. -/
def isPositionQuery : Event → Bool
  | .getPosition _ _ => true
  | _ => false

/-- Predicate selecting order-submission events. -/
def isOrderEvent : Event → Bool
  | .placeOrder _ _ => true
  | _ => false

/-- Predicate selecting a `sleep` of exactly `ms` milliseconds. -/
def isSleepOf (ms : ℚ) : Event → Bool
  | .sleep m => decide (m = ms)
  | _ => false

/-- Number of position queries in a trace. -/
def queryCount (tr : List Event) : Nat := tr.countP isPositionQuery

/-- Number of order submissions in a trace. -/
def orderCount (tr : List Event) : Nat := tr.countP isOrderEvent

/-- Number of fixed 1-second sleeps in a trace. -/
def sleep1000Count (tr : List Event) : Nat := tr.countP (isSleepOf 1000)

/-- Venues of the order submissions of a trace, in submission order. -/
def orderVenues (tr : List Event) : List Venue :=
  tr.filterMap fun e =>
    match e with
    | .placeOrder v _ => some v
    | _ => none

/-- Venue and side of each order submission of a trace, in order. -/
def orderSides (tr : List Event) : List (Venue × OrderSide) :=
  tr.filterMap fun e =>
    match e with
    | .placeOrder v req => some (v, req.side)
    | _ => none

/-- Venue and limit price of each order submission of a trace, in order. -/
def orderPrices (tr : List Event) : List (Venue × JsNum) :=
  tr.filterMap fun e =>
    match e with
    | .placeOrder v req => some (v, req.price)
    | _ => none

/-- Remote state observed by one `closePositions(symbol)` call.  `attempts i`
is the position pair the two venues report at retry attempt `i` (positions
evolve between attempts, hence the index); `final` is the pair reported by
the verification re-query after the retry loop; `tickers`/`contractIds`
serve the `getTicker`/`resolveContractId` calls made while closing.  This
is the fault-free view, in which every exchange call returns: exchange-call
faults are injected by its extension `CloseEnvF` below, and the faulting
model `closePositionsFull` coincides with `closePositions` on fault-free
environments (`closePositionsFull_fault_free`). -/
structure CloseEnv where
  attempts : Nat → Option Position × Option Position
  final : Option Position × Option Position
  tickers : Venue → String → JsNum
  contractIds : Venue → String → String

/-- Source `HedgeManager.closePosition(exchange, position)`: the reduce-only IOC
close order it submits on venue `v` and the trace of the exchange calls it
makes.  The TS `position.contractId || await exchange.resolveContractId(..)`
is a falsy check, so an absent or empty contract id triggers resolution. -/
def closePosition (slippage : ℚ) (env : CloseEnv) (v : Venue) (pos : Position) :
    OrderRequest × List Event :=
  let resolved :=
    match pos.contractId with
    | some c => if c = "" then none else some c
    | none => none
  let contractId :=
    match resolved with
    | some c => c
    | none => env.contractIds v pos.symbol
  let resolveEvents : List Event :=
    match resolved with
    | some _ => []
    | none => [Event.resolveContract v pos.symbol]
  let side : OrderSide :=
    match pos.side with
    | .buy => .sell
    | .sell => .buy
  let price := applySlippage (env.tickers v pos.symbol) slippage side
  let req : OrderRequest :=
    { symbol := pos.symbol
      contractId := contractId
      side := side
      ordType := "market"
      quantity := pos.size
      price := price
      timeInForce := "IOC"
      reduceOnly := true }
  (req, resolveEvents ++ [Event.getTicker v pos.symbol, Event.placeOrder v req])

/-- JS `position && parseFloat(position.size) > 0`: the guard under which
`closePositions` pushes a close for a venue. -/
def posOpen : Option Position → Bool
  | none => false
  | some p => jsGt0 p.size

/-- Both venues flat (no close promise pushed) at attempt `i` of `env`. -/
def flatAt (env : CloseEnv) (i : Nat) : Bool :=
  !posOpen (env.attempts i).1 && !posOpen (env.attempts i).2

/-- A position with positive parsed size reported on some venue by the final
verification re-query of `env`. -/
def finalOpen (env : CloseEnv) : Bool :=
  posOpen env.final.1 || posOpen env.final.2

/-- Exchange calls made by the close promises pushed at attempt `i`: the
first venue's close (when its position is open) followed by the second
venue's (promise-creation order; their remote effects are awaited jointly
by `Promise.all`). -/
def attemptCloseEvents (slippage : ℚ) (env : CloseEnv) (i : Nat) : List Event :=
  (match (env.attempts i).1 with
   | some p => if jsGt0 p.size then (closePosition slippage env .first p).2 else []
   | none => []) ++
  (match (env.attempts i).2 with
   | some p => if jsGt0 p.size then (closePosition slippage env .second p).2 else []
   | none => [])

/-- The retry loop of `HedgeManager.closePositions` over the remaining
attempt indices, followed (when no attempt early-returns) by the final
verification re-query.  Mirrors the source: each attempt queries both
venues, pushes a close per open venue, returns `true` immediately when no
close was pushed, and otherwise falls through to `sleep(1000)` and the next
attempt whether the closes succeeded or threw (the `catch` only logs). -/
def closePositionsGo (slippage : ℚ) (symbol : String) (env : CloseEnv) :
    List Nat → Bool × List Event
  | [] =>
    let queryEvents : List Event :=
      [Event.getPosition .first symbol, Event.getPosition .second symbol]
    if posOpen env.final.1 then (false, queryEvents)
    else if posOpen env.final.2 then (false, queryEvents)
    else (true, queryEvents)
  | i :: rest =>
    let queryEvents : List Event :=
      [Event.getPosition .first symbol, Event.getPosition .second symbol]
    let pushedCount :=
      (if posOpen (env.attempts i).1 then 1 else 0) +
      (if posOpen (env.attempts i).2 then 1 else 0)
    if pushedCount = 0 then (true, queryEvents)
    else
      let (r, tr) := closePositionsGo slippage symbol env rest
      (r, queryEvents ++ attemptCloseEvents slippage env i ++ [Event.sleep 1000] ++ tr)

/-- Source `HedgeManager.closePositions(symbol)` over the fault-free view:
up to 5 retry attempts, then the final verification re-query.  Returns the
boolean result and the trace; see `closePositionsFull` for the
fault-injecting model in which the final verification can reject. -/
def closePositions (slippage : ℚ) (symbol : String) (env : CloseEnv) :
    Bool × List Event :=
  closePositionsGo slippage symbol env [0, 1, 2, 3, 4]

/-- Replacement of every reported position whose size does not parse to a
number strictly greater than `0` by an absent position (claim C10's
transformation of the remote state). -/
def scrubPos : Option Position → Option Position
  | none => none
  | some p => if jsGt0 p.size then some p else none

/-- Transformation `scrubPos` applied throughout a `CloseEnv`. -/
def scrubEnv (env : CloseEnv) : CloseEnv :=
  { attempts := fun i => (scrubPos (env.attempts i).1, scrubPos (env.attempts i).2)
    final := (scrubPos env.final.1, scrubPos env.final.2)
    tickers := env.tickers
    contractIds := env.contractIds }

/-- Remote state and random draws observed by one pass through the body of
`run`'s `while (this.isRunning)` loop.  `runningAtStart` is the value of the
running flag at the loop guard and the adjacent first in-body check (no
suspension separates the two reads, so they observe the same value);
`runningAfterHold` is its value at the check after the hold sleep (it may
have been cleared by `stop` during the hold).  The random draws (`symbolIdx`
from `randomIntegerBetween(0, symbols.length - 1)`, `sizeUSD` from
`randomBetween(minSizeUSD, maxSizeUSD)`, `sideDraw` from
`randomIntegerBetween(1, 2)`, the hold and inter-cycle sleep durations) are
environment-supplied, as the random source is external input. -/
structure IterEnv where
  runningAtStart : Bool
  symbolIdx : Nat
  sizeUSD : ℚ
  sideDraw : Nat
  preClose : CloseEnv
  market : MarketEnv
  holdTimeMs : ℚ
  runningAfterHold : Bool
  postClose : CloseEnv
  sleepBetweenMs : ℚ

/-- How one pass through `run`'s loop body ended. -/
inductive IterOutcome where
  | broke
  | continuedPreClose
  | caughtError
  | brokeAfterHold
  | continuedPostClose
  | completed
deriving DecidableEq, Repr

/-- One pass through the body of `run`'s loop (source lines 269–355),
returning how the pass ended and its event trace.  Control flow mirrors the
source exactly: a `continue` skips the rest of the loop body — including
the trailing `await sleep(1000)` — while a caught exception falls through
to that trailing sleep, and a `break` exits the loop.  The post-hold
close-failure path performs its own explicit `sleep(1000)` before its
`continue`. -/
def runIteration (cfg : HedgeConfig) (symbols : List String) (env : IterEnv) :
    IterOutcome × List Event :=
  if env.runningAtStart = false then (.broke, [])
  else
    let symbol := symbols.getD env.symbolIdx ""
    let (preClosed, preTrace) := closePositions cfg.slippage symbol env.preClose
    if preClosed = false then (.continuedPreClose, preTrace)
    else
      let (firstSide, secondSide) :=
        if env.sideDraw = 1 then (OrderSide.buy, OrderSide.sell)
        else (OrderSide.sell, OrderSide.buy)
      let (orderRes, orderTrace) :=
        placeMarketOrder cfg env.market symbol env.sizeUSD firstSide secondSide
      match orderRes with
      | .error _ => (.caughtError, preTrace ++ orderTrace ++ [Event.sleep 1000])
      | .ok _ =>
        let heldTrace := preTrace ++ orderTrace ++ [Event.sleep env.holdTimeMs]
        if env.runningAfterHold = false then (.brokeAfterHold, heldTrace)
        else
          let (postClosed, postTrace) := closePositions cfg.slippage symbol env.postClose
          if postClosed = false then
            (.continuedPostClose, heldTrace ++ postTrace ++ [Event.sleep 1000])
          else
            (.completed,
             heldTrace ++ postTrace ++ [Event.sleep env.sleepBetweenMs, Event.sleep 1000])

/-- Engine-internal mutable state: the single `isRunning` flag. -/
structure EngineState where
  isRunning : Bool
deriving DecidableEq, Repr

/-- Remote state for a whole `run` call: one `IterEnv` per loop pass and
one `CloseEnv` per symbol for the final cleanup sweep of the `finally`
block. -/
structure RunEnv where
  iters : Nat → IterEnv
  cleanup : Nat → CloseEnv

/-- The `while (this.isRunning)` loop of `run`, truncated at `fuel` passes
(the source loop is unbounded; every claim about it concerns finitely many
passes).  A pass that `break`s ends the loop; any other outcome continues
with the next pass. -/
def runLoop (cfg : HedgeConfig) (symbols : List String) (env : RunEnv) :
    Nat → Nat → List Event
  | 0, _ => []
  | fuel + 1, i =>
    let (outcome, tr) := runIteration cfg symbols (env.iters i)
    match outcome with
    | .broke => tr
    | .brokeAfterHold => tr
    | _ => tr ++ runLoop cfg symbols env fuel (i + 1)

/-- The per-symbol best-effort `closePositions` sweep of `run`'s `finally`
block (errors there are caught and logged, never re-thrown). -/
def runCleanup (slippage : ℚ) (cenvs : Nat → CloseEnv) :
    List String → Nat → List Event
  | [], _ => []
  | s :: rest, i =>
    (closePositions slippage s (cenvs i)).2 ++ runCleanup slippage cenvs rest (i + 1)

/-- Source `HedgeManager.run(symbols)`: the double-entry guard, then the loop and
the guaranteed cleanup block.  Returns the promise outcome, the engine
state after the call, and the trace. -/
def run (cfg : HedgeConfig) (st : EngineState) (symbols : List String)
    (env : RunEnv) (fuel : Nat) : Except String Unit × EngineState × List Event :=
  if st.isRunning then
    (.error "HedgeManager is already running", st, [])
  else
    (.ok (), { isRunning := false },
     runLoop cfg symbols env fuel 0 ++ runCleanup cfg.slippage env.cleanup symbols 0)

/-- Predicate selecting trade-record-store events. -/
def isStoreEvent : Event → Bool
  | .storeCreate _ _ => true
  | .storeUpdate _ => true
  | _ => false

/-- Trace restricted to trading (non-store) behavior. -/
def tradingEvents (tr : List Event) : List Event := tr.filter fun e => !isStoreEvent e

/-- Trace restricted to trade-record-store calls. -/
def storeEvents (tr : List Event) : List Event := tr.filter isStoreEvent

/-- Whether an `Except` result is a success. -/
def isOk {ε α : Type} : Except ε α → Bool
  | .ok _ => true
  | .error _ => false

/-- Modelled from the spec: the Trade Record Store integration of the Hedge
Cycle Engine is absent from `src/` — the `hedge.ts` there takes only the
two exchanges and a config, while its caller constructs `HedgeManager` with
a `TradeHistoryRepository` third argument.  Per spec §2/§4.1/§6: the engine
holds an *optional* store (`store = none` when absent); a trade record is
created when a hedge cycle opens positions and updated/closed when the
positions are closed; every store call is guarded by an existence check.
`hedgeCycleWithStore` is one open→close cycle with that store behavior
attached: a `storeCreate` right after a successful open, a `storeUpdate`
after a successful close of the cycle's positions. -/
def hedgeCycleWithStore (store : Option Nat) (cfg : HedgeConfig) (menv : MarketEnv)
    (cenv : CloseEnv) (symbol : String) (sizeUSD : ℚ)
    (firstSide secondSide : OrderSide) : List Event :=
  let (orderRes, orderTrace) :=
    placeMarketOrder cfg menv symbol sizeUSD firstSide secondSide
  match orderRes with
  | .error _ => orderTrace
  | .ok _ =>
    let createEvents : List Event :=
      match store with
      | some id => [Event.storeCreate id symbol]
      | none => []
    let (closed, closeTrace) := closePositions cfg.slippage symbol cenv
    let updateEvents : List Event :=
      match store, closed with
      | some id, true => [Event.storeUpdate id]
      | _, _ => []
    orderTrace ++ createEvents ++ closeTrace ++ updateEvents

/-- A concretely open position (parsed size `2 > 0`) on `sym`. -/
def openPos (sym : String) : Position :=
  { symbol := sym, contractId := some "c1", side := .buy, size := some 2 }

/-- A position whose venue reports the size string `"0"` (parsed size `0`). -/
def zeroPosEth : Position :=
  { symbol := "ETH", contractId := some "c1", side := .buy, size := some 0 }

/-- A position whose venue reports the size string `"1.5"` (parsed `3/2`). -/
def pos15Eth : Position :=
  { symbol := "ETH", contractId := some "c1", side := .sell, size := some (3/2) }

/-- Remote state where the first venue reports an open position at every
attempt and still at the final verification (a close that never sticks). -/
def allOpenCloseEnv : CloseEnv :=
  { attempts := fun _ => (some (openPos "ETH"), none)
    final := (some (openPos "ETH"), none)
    tickers := fun _ _ => some 100
    contractIds := fun _ _ => "c1" }

/-- Remote state where both venues are flat at the very first attempt, yet
a position would be visible to a (never performed) final re-query. -/
def earlyFlatCloseEnv : CloseEnv :=
  { attempts := fun _ => (none, none)
    final := (some (openPos "ETH"), none)
    tickers := fun _ _ => some 100
    contractIds := fun _ _ => "c1" }

/-- Remote state where both venues report flat at every query. -/
def flatCloseEnv : CloseEnv :=
  { attempts := fun _ => (none, none)
    final := (none, none)
    tickers := fun _ _ => some 100
    contractIds := fun _ _ => "c1" }

/-- Remote state of the spec's end-to-end close scenario: at the first
attempt the first venue reports size `"0"` and the second `"1.5"`; from the
next attempt on both venues are flat. -/
def ethExampleCloseEnv : CloseEnv :=
  { attempts := fun i => if i = 0 then (some zeroPosEth, some pos15Eth) else (none, none)
    final := (none, none)
    tickers := fun _ _ => some 100
    contractIds := fun _ _ => "c1" }

/-- Market state where both venues quote a last price of `50000`. -/
def btcMarketEnv : MarketEnv :=
  { contractIds := fun _ _ => "BTC-PERP", tickers := fun _ _ => some 50000 }

/-- Market state where the first venue quotes a non-positive last price. -/
def badPriceMarketEnv : MarketEnv :=
  { contractIds := fun _ _ => "BTC-PERP", tickers := fun _ _ => some (-1) }

/-- One loop pass in which the pre-open `closePositions` sweep fails (the
first venue never goes flat): the iteration takes the first `continue`. -/
def preCloseFailIterEnv : IterEnv :=
  { runningAtStart := true
    symbolIdx := 0
    sizeUSD := 500
    sideDraw := 1
    preClose := allOpenCloseEnv
    market := btcMarketEnv
    holdTimeMs := 30000
    runningAfterHold := true
    postClose := flatCloseEnv
    sleepBetweenMs := 2000 }

/-- One loop pass in which the open throws (non-positive reference price)
and the exception is caught by the iteration-level `catch`. -/
def caughtErrorIterEnv : IterEnv :=
  { runningAtStart := true
    symbolIdx := 0
    sizeUSD := 500
    sideDraw := 1
    preClose := flatCloseEnv
    market := badPriceMarketEnv
    holdTimeMs := 30000
    runningAfterHold := true
    postClose := flatCloseEnv
    sleepBetweenMs := 2000 }

/-- A concrete whole-`run` remote state. -/
def trivialRunEnv : RunEnv :=
  { iters := fun _ => caughtErrorIterEnv, cleanup := fun _ => flatCloseEnv }

/-- A trace containing no trade-record-store call. -/
def noStoreTrace (tr : List Event) : Prop := ∀ e ∈ tr, isStoreEvent e = false

/-- Remote state for `closePositions` including exchange-call faults.
Extends the fault-free view `CloseEnv`: `attempts`/`final` give the values
a `getPosition` call reports when it succeeds, while `fault1 i` / `fault2 i`
make the corresponding position query of attempt `i` reject instead (the
source catches any throw of an attempt at hedge.ts lines 235-237 and falls
through to the 1-second sleep), and `finalFault1` / `finalFault2` — carrying
the thrown error — make the corresponding query of the final verification
reject; that verification sits outside the `try`, so its fault propagates
out of `closePositions`.  The two queries of an attempt (and of the final
verification) are sequential awaits, so a fault of the first suppresses
the second.  A rejection of the pushed close calls themselves needs no
injection: it reaches the same `catch` / `sleep` / next-attempt
continuation as a success and changes neither the result nor any
position-query or sleep event. -/
structure CloseEnvF extends CloseEnv where
  fault1 : Nat → Bool
  fault2 : Nat → Bool
  finalFault1 : Option String
  finalFault2 : Option String

/-- Attempt `i` early-returns: both of its position queries succeed and no
venue reports an open (positive-parsed-size) position, so no close promise
is pushed and the loop returns `true` from inside the `try`. -/
def earlyAt (env : CloseEnvF) (i : Nat) : Bool :=
  !env.fault1 i && !env.fault2 i && flatAt env.toCloseEnv i

/-- Source `HedgeManager.closePositions` over the fault-injecting
environment: the retry loop with its attempt-level `try` / `catch` (a caught
query fault skips the rest of the attempt and falls to the `sleep(1000)`),
then the unguarded final verification, whose query faults propagate as the
call's rejection.  Restricted to a fault-free environment this coincides
with `closePositionsGo` (theorem `closePositionsFullGo_fault_free`). -/
def closePositionsFullGo (slippage : ℚ) (symbol : String) (env : CloseEnvF) :
    List Nat → Except String Bool × List Event
  | [] =>
    match env.finalFault1 with
    | some e => (.error e, [Event.getPosition .first symbol])
    | none =>
      match env.finalFault2 with
      | some e =>
        (.error e, [Event.getPosition .first symbol, Event.getPosition .second symbol])
      | none =>
        let queryEvents : List Event :=
          [Event.getPosition .first symbol, Event.getPosition .second symbol]
        if posOpen env.final.1 then (.ok false, queryEvents)
        else if posOpen env.final.2 then (.ok false, queryEvents)
        else (.ok true, queryEvents)
  | i :: rest =>
    if env.fault1 i then
      let (r, tr) := closePositionsFullGo slippage symbol env rest
      (r, [Event.getPosition .first symbol, Event.sleep 1000] ++ tr)
    else if env.fault2 i then
      let (r, tr) := closePositionsFullGo slippage symbol env rest
      (r, [Event.getPosition .first symbol, Event.getPosition .second symbol,
           Event.sleep 1000] ++ tr)
    else
      let queryEvents : List Event :=
        [Event.getPosition .first symbol, Event.getPosition .second symbol]
      let pushedCount :=
        (if posOpen (env.attempts i).1 then 1 else 0) +
        (if posOpen (env.attempts i).2 then 1 else 0)
      if pushedCount = 0 then (.ok true, queryEvents)
      else
        let (r, tr) := closePositionsFullGo slippage symbol env rest
        (r, queryEvents ++ attemptCloseEvents slippage env.toCloseEnv i ++
            [Event.sleep 1000] ++ tr)

/-- Source `HedgeManager.closePositions(symbol)` with exchange-call faults:
up to 5 retry attempts, then the final verification re-query. -/
def closePositionsFull (slippage : ℚ) (symbol : String) (env : CloseEnvF) :
    Except String Bool × List Event :=
  closePositionsFullGo slippage symbol env [0, 1, 2, 3, 4]

/-- Faulty remote state: the first venue's position query rejects at every
attempt (each time caught and logged), and the final verification succeeds,
reporting an open first-venue position. -/
def allFaultCloseEnv : CloseEnvF :=
  { toCloseEnv := allOpenCloseEnv
    fault1 := fun _ => true
    fault2 := fun _ => false
    finalFault1 := none
    finalFault2 := none }

/-- Faulty remote state: all attempts run normally (first venue always
open), and then the final verification's first query rejects. -/
def finalFaultCloseEnv : CloseEnvF :=
  { toCloseEnv := allOpenCloseEnv
    fault1 := fun _ => false
    fault2 := fun _ => false
    finalFault1 := some "network down"
    finalFault2 := none }

/-! ## Helper lemmas -/

theorem posOpen_scrubPos (p : Option Position) : posOpen (scrubPos p) = posOpen p := by
  cases p with
  | none => rfl
  | some q =>
    by_cases h : jsGt0 q.size
    · simp [scrubPos, posOpen, h]
    · simp [scrubPos, posOpen, h]

theorem scrubPos_of_open (p : Option Position) (h : posOpen p = true) : scrubPos p = p := by
  cases p with
  | none => rfl
  | some q => simp only [posOpen] at h; simp [scrubPos, h]

theorem closePosition_scrubEnv (slippage : ℚ) (env : CloseEnv) (v : Venue) (pos : Position) :
    closePosition slippage (scrubEnv env) v pos = closePosition slippage env v pos := rfl

theorem flatAt_iff_pushedCount (env : CloseEnv) (i : Nat) :
    ((if posOpen (env.attempts i).1 then 1 else 0) +
      (if posOpen (env.attempts i).2 then 1 else 0) = 0) ↔ flatAt env i = true := by
  unfold flatAt
  cases h1 : posOpen (env.attempts i).1 <;> cases h2 : posOpen (env.attempts i).2 <;> simp

theorem orderVenues_append (l1 l2 : List Event) :
    orderVenues (l1 ++ l2) = orderVenues l1 ++ orderVenues l2 := by
  unfold orderVenues; exact List.filterMap_append l1 l2 _

theorem queryCount_append (l1 l2 : List Event) :
    queryCount (l1 ++ l2) = queryCount l1 + queryCount l2 := by
  unfold queryCount; exact List.countP_append _ _ _

theorem orderCount_append (l1 l2 : List Event) :
    orderCount (l1 ++ l2) = orderCount l1 + orderCount l2 := by
  unfold orderCount; exact List.countP_append _ _ _

theorem sleep1000Count_append (l1 l2 : List Event) :
    sleep1000Count (l1 ++ l2) = sleep1000Count l1 + sleep1000Count l2 := by
  unfold sleep1000Count; exact List.countP_append _ _ _

theorem closePosition_snd (slippage : ℚ) (env : CloseEnv) (v : Venue) (pos : Position) :
    (closePosition slippage env v pos).2 =
      (match pos.contractId with
       | some c => if c = "" then [Event.resolveContract v pos.symbol] else []
       | none => [Event.resolveContract v pos.symbol]) ++
      [Event.getTicker v pos.symbol,
       Event.placeOrder v (closePosition slippage env v pos).1] := by
  unfold closePosition
  cases pos.contractId with
  | none => rfl
  | some c => by_cases hc : c = "" <;> simp [hc]

theorem mem_closePosition_snd (slippage : ℚ) (env : CloseEnv) (v : Venue) (pos : Position)
    (e : Event) (he : e ∈ (closePosition slippage env v pos).2) :
    e = Event.resolveContract v pos.symbol ∨ e = Event.getTicker v pos.symbol ∨
    e = Event.placeOrder v (closePosition slippage env v pos).1 := by
  rw [closePosition_snd] at he
  rcases List.mem_append.mp he with h | h
  · cases hcid : pos.contractId with
    | none => simp [hcid] at h; exact Or.inl h
    | some c =>
      by_cases hc : c = "" <;> simp [hcid, hc] at h
      exact Or.inl h
  · simp at h
    rcases h with h | h
    · exact Or.inr (Or.inl h)
    · exact Or.inr (Or.inr h)

theorem orderVenues_closePosition (slippage : ℚ) (env : CloseEnv) (v : Venue) (pos : Position) :
    orderVenues (closePosition slippage env v pos).2 = [v] := by
  rw [closePosition_snd, orderVenues_append]
  cases pos.contractId with
  | none => simp [orderVenues]
  | some c => by_cases hc : c = "" <;> simp [hc, orderVenues]

theorem queryCount_closePosition (slippage : ℚ) (env : CloseEnv) (v : Venue) (pos : Position) :
    queryCount (closePosition slippage env v pos).2 = 0 := by
  unfold queryCount
  rw [List.countP_eq_zero]
  intro e he
  rcases mem_closePosition_snd slippage env v pos e he with rfl | rfl | rfl <;>
    simp [isPositionQuery]

theorem sleep1000Count_closePosition (slippage : ℚ) (env : CloseEnv) (v : Venue) (pos : Position) :
    sleep1000Count (closePosition slippage env v pos).2 = 0 := by
  unfold sleep1000Count
  rw [List.countP_eq_zero]
  intro e he
  rcases mem_closePosition_snd slippage env v pos e he with rfl | rfl | rfl <;>
    simp [isSleepOf]

theorem noStore_closePosition (slippage : ℚ) (env : CloseEnv) (v : Venue) (pos : Position) :
    noStoreTrace (closePosition slippage env v pos).2 := by
  intro e he
  rcases mem_closePosition_snd slippage env v pos e he with rfl | rfl | rfl <;> rfl

theorem mem_attemptCloseEvents (slippage : ℚ) (env : CloseEnv) (i : Nat) (e : Event)
    (he : e ∈ attemptCloseEvents slippage env i) :
    ∃ v p, e ∈ (closePosition slippage env v p).2 := by
  unfold attemptCloseEvents at he
  rcases List.mem_append.mp he with h | h
  · cases h1 : (env.attempts i).1 with
    | none => simp [h1] at h
    | some p =>
      simp only [h1] at h
      by_cases hg : jsGt0 p.size
      · rw [if_pos hg] at h
        exact ⟨.first, p, h⟩
      · rw [if_neg hg] at h; cases h
  · cases h2 : (env.attempts i).2 with
    | none => simp [h2] at h
    | some p =>
      simp only [h2] at h
      by_cases hg : jsGt0 p.size
      · rw [if_pos hg] at h
        exact ⟨.second, p, h⟩
      · rw [if_neg hg] at h; cases h

theorem orderVenues_attemptCloseEvents (slippage : ℚ) (env : CloseEnv) (i : Nat) :
    orderVenues (attemptCloseEvents slippage env i) =
      ((if posOpen (env.attempts i).1 then [Venue.first] else []) ++
       (if posOpen (env.attempts i).2 then [Venue.second] else [])) := by
  unfold attemptCloseEvents
  rw [orderVenues_append]
  congr 1
  · cases h : (env.attempts i).1 with
    | none => simp [posOpen, orderVenues]
    | some p =>
      by_cases hg : jsGt0 p.size
      · simp only [posOpen, hg, if_true]
        exact orderVenues_closePosition slippage env .first p
      · simp [posOpen, hg, orderVenues]
  · cases h : (env.attempts i).2 with
    | none => simp [posOpen, orderVenues]
    | some p =>
      by_cases hg : jsGt0 p.size
      · simp only [posOpen, hg, if_true]
        exact orderVenues_closePosition slippage env .second p
      · simp [posOpen, hg, orderVenues]

theorem queryCount_attemptCloseEvents (slippage : ℚ) (env : CloseEnv) (i : Nat) :
    queryCount (attemptCloseEvents slippage env i) = 0 := by
  unfold queryCount
  rw [List.countP_eq_zero]
  intro e he
  obtain ⟨v, p, hm⟩ := mem_attemptCloseEvents slippage env i e he
  rcases mem_closePosition_snd slippage env v p e hm with rfl | rfl | rfl <;>
    simp [isPositionQuery]

theorem sleep1000Count_attemptCloseEvents (slippage : ℚ) (env : CloseEnv) (i : Nat) :
    sleep1000Count (attemptCloseEvents slippage env i) = 0 := by
  unfold sleep1000Count
  rw [List.countP_eq_zero]
  intro e he
  obtain ⟨v, p, hm⟩ := mem_attemptCloseEvents slippage env i e he
  rcases mem_closePosition_snd slippage env v p e hm with rfl | rfl | rfl <;>
    simp [isSleepOf]

theorem noStore_attemptCloseEvents (slippage : ℚ) (env : CloseEnv) (i : Nat) :
    noStoreTrace (attemptCloseEvents slippage env i) := by
  intro e he
  obtain ⟨v, p, hm⟩ := mem_attemptCloseEvents slippage env i e he
  exact noStore_closePosition slippage env v p e hm

/-! ## C1, C5, C7, C9 -/

/-- C1: refuted on the code.  `run` draws the side assignment
(first=sell, second=buy) and passes it to `placeMarketOrder`, but the
submitted legs carry the hardcoded sides buy (first) and sell (second);
the caller-specified sides reach only the slippage-adjusted prices — the
first leg is a buy order priced as a sell (`50000 × 0.98`) and the second
a sell order priced as a buy (`50000 × 1.02`). -/
theorem C1_first_leg_side_hardcoded :
    orderSides (placeMarketOrder DEFAULT_HEDGE_CONFIG btcMarketEnv "BTC" 500
        OrderSide.sell OrderSide.buy).2 =
      [(Venue.first, OrderSide.buy), (Venue.second, OrderSide.sell)] ∧
    orderPrices (placeMarketOrder DEFAULT_HEDGE_CONFIG btcMarketEnv "BTC" 500
        OrderSide.sell OrderSide.buy).2 =
      [(Venue.first, some 49000), (Venue.second, some 51000)] := by
  constructor
  · norm_num [placeMarketOrder, calculateQuantityFromUSD, jsLe0, jsDiv, toFixed6,
      applySlippage, calculatePriceWithSlippage, btcMarketEnv, DEFAULT_HEDGE_CONFIG, orderSides]
    rfl
  · norm_num [placeMarketOrder, calculateQuantityFromUSD, jsLe0, jsDiv, toFixed6,
      applySlippage, calculatePriceWithSlippage, btcMarketEnv, DEFAULT_HEDGE_CONFIG, orderPrices]
    rfl

/-- C5: refuted as stated — the slippage adjustments are not strictly
monotonic in the slippage for every price: at price `0` both adjustments
are constantly `0`. -/
theorem C5_counterexample :
    ¬ (∀ price s1 s2 : ℚ, s1 < s2 →
        calculatePriceWithSlippage price s1 .buy < calculatePriceWithSlippage price s2 .buy ∧
        calculatePriceWithSlippage price s2 .sell < calculatePriceWithSlippage price s1 .sell) := by
  intro h
  have h0 := h 0 0 1 (by norm_num)
  norm_num [calculatePriceWithSlippage] at h0

/-- C5 (amended): for every price and slippage the adjusted price is
`price × (1 + slippage)` for a buy and `price × (1 − slippage)` for a
sell, and for every strictly positive price both adjustments are strictly
monotonic in the slippage (increasing for a buy, decreasing for a sell). -/
theorem C5_slippage_amended (price slippage : ℚ) :
    calculatePriceWithSlippage price slippage .buy = price * (1 + slippage) ∧
    calculatePriceWithSlippage price slippage .sell = price * (1 - slippage) ∧
    (0 < price → ∀ s1 s2 : ℚ, s1 < s2 →
      calculatePriceWithSlippage price s1 .buy < calculatePriceWithSlippage price s2 .buy ∧
      calculatePriceWithSlippage price s2 .sell < calculatePriceWithSlippage price s1 .sell) := by
  refine ⟨rfl, rfl, fun hp s1 s2 hs => ⟨?_, ?_⟩⟩
  · exact mul_lt_mul_of_pos_left (by linarith) hp
  · exact mul_lt_mul_of_pos_left (by linarith) hp

/-- Witness for C5 (amended) at price `100`, slippages `1/100 < 2/100`. -/
theorem C5_slippage_amended_witness :
    calculatePriceWithSlippage 100 (1/100) .buy = 100 * (1 + 1/100) ∧
    calculatePriceWithSlippage 100 (1/100) .buy < calculatePriceWithSlippage 100 (2/100) .buy ∧
    calculatePriceWithSlippage 100 (2/100) .sell < calculatePriceWithSlippage 100 (1/100) .sell := by
  have h := C5_slippage_amended 100 (1/100)
  have hm := h.2.2 (by norm_num) (1/100) (2/100) (by norm_num)
  exact ⟨h.1, hm.1, hm.2⟩

/-- C7: `run` invoked while the running flag is set fails synchronously
with the guard error, leaving the engine state unchanged and performing no
exchange interaction (empty trace); invoked while not running, it never
produces that guard error (the model resolves normally). -/
theorem C7_run_guard (cfg : HedgeConfig) (st : EngineState) (symbols : List String)
    (env : RunEnv) (fuel : Nat) :
    (st.isRunning = true →
      run cfg st symbols env fuel =
        (Except.error "HedgeManager is already running", st, [])) ∧
    (st.isRunning = false → (run cfg st symbols env fuel).1 = Except.ok ()) := by
  constructor <;> intro h <;> simp [run, h]

/-- Witness for C7 at concrete running / not-running engine states. -/
theorem C7_run_guard_witness :
    run DEFAULT_HEDGE_CONFIG ⟨true⟩ ["ETH"] trivialRunEnv 0 =
      (Except.error "HedgeManager is already running", ⟨true⟩, []) ∧
    (run DEFAULT_HEDGE_CONFIG ⟨false⟩ ["ETH"] trivialRunEnv 0).1 = Except.ok () := by
  exact ⟨(C7_run_guard DEFAULT_HEDGE_CONFIG ⟨true⟩ ["ETH"] trivialRunEnv 0).1 rfl,
         (C7_run_guard DEFAULT_HEDGE_CONFIG ⟨false⟩ ["ETH"] trivialRunEnv 0).2 rfl⟩

/-- C9: for every `sizeUSD ≤ 0`, `placeMarketOrder` fails with
"sizeUSD must be greater than 0" with an empty trace — no contract-id
resolution, no ticker fetch and no order submission on either exchange. -/
theorem C9_nonpositive_sizeUSD_guard (cfg : HedgeConfig) (env : MarketEnv) (symbol : String)
    (sizeUSD : ℚ) (fs ss : OrderSide) (h : sizeUSD ≤ 0) :
    placeMarketOrder cfg env symbol sizeUSD fs ss =
      (Except.error "sizeUSD must be greater than 0", []) := by
  simp [placeMarketOrder, h]

/-- Witness for C9 at `sizeUSD = 0`. -/
theorem C9_nonpositive_sizeUSD_guard_witness :
    placeMarketOrder DEFAULT_HEDGE_CONFIG btcMarketEnv "BTC" 0 OrderSide.buy OrderSide.sell =
      (Except.error "sizeUSD must be greater than 0", []) :=
  C9_nonpositive_sizeUSD_guard DEFAULT_HEDGE_CONFIG btcMarketEnv "BTC" 0
    OrderSide.buy OrderSide.sell (by norm_num)

theorem closePositionsGo_false_iff (slippage : ℚ) (symbol : String) (env : CloseEnv)
    (l : List Nat) :
    (closePositionsGo slippage symbol env l).1 = false ↔
      ((∀ i ∈ l, flatAt env i = false) ∧ finalOpen env = true) := by
  induction l with
  | nil =>
    unfold closePositionsGo finalOpen
    by_cases h1 : posOpen env.final.1
    · simp [h1]
    · by_cases h2 : posOpen env.final.2 <;> simp [h1, h2]
  | cons i rest ih =>
    by_cases hf : flatAt env i = true
    · have hc := (flatAt_iff_pushedCount env i).mpr hf
      unfold closePositionsGo
      simp [hc, hf]
    · have hf' : flatAt env i = false := by
        revert hf; cases flatAt env i <;> simp
      have hc : ¬ ((if posOpen (env.attempts i).1 then 1 else 0) +
          (if posOpen (env.attempts i).2 then 1 else 0) = 0) := by
        intro h
        rw [(flatAt_iff_pushedCount env i).mp h] at hf'
        cases hf'
      rcases hgo : closePositionsGo slippage symbol env rest with ⟨r, tr⟩
      unfold closePositionsGo
      rw [hgo] at ih
      simp only [hgo, hc, if_neg]
      simp [hf', ih]

theorem closePositionsGo_counts (slippage : ℚ) (symbol : String) (env : CloseEnv)
    (l : List Nat) :
    queryCount (closePositionsGo slippage symbol env l).2 =
      (if (l.takeWhile fun i => !flatAt env i).length = l.length
       then 2 * l.length + 2
       else 2 * ((l.takeWhile fun i => !flatAt env i).length + 1)) ∧
    sleep1000Count (closePositionsGo slippage symbol env l).2 =
      (l.takeWhile fun i => !flatAt env i).length := by
  induction l with
  | nil =>
    unfold closePositionsGo
    by_cases h1 : posOpen env.final.1
    · simp [h1, queryCount, sleep1000Count, isPositionQuery, isSleepOf]
    · by_cases h2 : posOpen env.final.2 <;>
        simp [h1, h2, queryCount, sleep1000Count, isPositionQuery, isSleepOf]
  | cons i rest ih =>
    by_cases hf : flatAt env i = true
    · have hc := (flatAt_iff_pushedCount env i).mpr hf
      unfold closePositionsGo
      rw [List.takeWhile_cons]
      simp [hc, hf, queryCount, sleep1000Count, isPositionQuery, isSleepOf,
        Nat.succ_ne_zero]
    · have hf' : flatAt env i = false := by
        revert hf; cases flatAt env i <;> simp
      have hc : ¬ ((if posOpen (env.attempts i).1 then 1 else 0) +
          (if posOpen (env.attempts i).2 then 1 else 0) = 0) := by
        intro h
        rw [(flatAt_iff_pushedCount env i).mp h] at hf'
        cases hf'
      rcases hgo : closePositionsGo slippage symbol env rest with ⟨r, tr⟩
      rw [hgo] at ih
      dsimp only at ih
      unfold closePositionsGo
      rw [List.takeWhile_cons]
      simp only [hgo, hf', Bool.not_false, if_true, List.length_cons]
      rw [if_neg hc]
      rw [queryCount_append, queryCount_append, queryCount_append,
        sleep1000Count_append, sleep1000Count_append, sleep1000Count_append,
        queryCount_attemptCloseEvents, sleep1000Count_attemptCloseEvents]
      have hq2 : queryCount [Event.getPosition .first symbol, Event.getPosition .second symbol] = 2 := by
        simp [queryCount, isPositionQuery]
      have hs2 : sleep1000Count [Event.getPosition .first symbol, Event.getPosition .second symbol] = 0 := by
        simp [sleep1000Count, isSleepOf]
      have hq1 : queryCount [Event.sleep 1000] = 0 := by
        simp [queryCount, isPositionQuery]
      have hs1 : sleep1000Count [Event.sleep 1000] = 1 := by
        simp [sleep1000Count, isSleepOf]
      rw [hq2, hs2, hq1, hs1]
      obtain ⟨ihq, ihs⟩ := ih
      constructor
      · by_cases ht : (rest.takeWhile fun j => !flatAt env j).length = rest.length
        · rw [if_pos ht] at ihq
          rw [if_pos (by simpa using congrArg Nat.succ ht)]
          omega
        · rw [if_neg ht] at ihq
          rw [if_neg (by simpa using fun h => ht (Nat.succ_injective h))]
          omega
      · omega

theorem noStore_closePositionsGo (slippage : ℚ) (symbol : String) (env : CloseEnv)
    (l : List Nat) :
    noStoreTrace (closePositionsGo slippage symbol env l).2 := by
  induction l with
  | nil =>
    unfold closePositionsGo
    by_cases h1 : posOpen env.final.1
    · simp only [h1, if_true]
      intro e he
      simp at he
      rcases he with rfl | rfl <;> rfl
    · by_cases h2 : posOpen env.final.2 <;>
        · simp only [h1, h2, if_true, if_false, Bool.false_eq_true]
          intro e he
          simp at he
          rcases he with rfl | rfl <;> rfl
  | cons i rest ih =>
    by_cases hfc : ((if posOpen (env.attempts i).1 then 1 else 0) +
        (if posOpen (env.attempts i).2 then 1 else 0) = 0)
    · unfold closePositionsGo
      rw [if_pos hfc]
      intro e he
      simp at he
      rcases he with rfl | rfl <;> rfl
    · rcases hgo : closePositionsGo slippage symbol env rest with ⟨r, tr⟩
      rw [hgo] at ih
      unfold closePositionsGo
      simp only [hgo]
      rw [if_neg hfc]
      intro e he
      dsimp only at he ih
      rcases List.mem_append.mp he with h | h
      · rcases List.mem_append.mp h with h | h
        · rcases List.mem_append.mp h with h | h
          · simp at h
            rcases h with rfl | rfl <;> rfl
          · exact noStore_attemptCloseEvents slippage env i e h
        · simp at h
          subst h; rfl
      · exact ih e h

theorem noStore_closePositions (slippage : ℚ) (symbol : String) (env : CloseEnv) :
    noStoreTrace (closePositions slippage symbol env).2 :=
  noStore_closePositionsGo slippage symbol env [0, 1, 2, 3, 4]

theorem noStore_placeMarketOrder (cfg : HedgeConfig) (env : MarketEnv) (symbol : String)
    (sizeUSD : ℚ) (fs ss : OrderSide) :
    noStoreTrace (placeMarketOrder cfg env symbol sizeUSD fs ss).2 := by
  unfold placeMarketOrder
  by_cases hs : sizeUSD ≤ 0
  · rw [if_pos hs]
    intro e he
    cases he
  · rw [if_neg hs]
    cases hq : calculateQuantityFromUSD symbol sizeUSD (env.tickers .first symbol) with
    | error err =>
      simp only [hq]
      intro e he
      simp at he
      rcases he with rfl | rfl | rfl | rfl <;> rfl
    | ok quantity =>
      simp only [hq]
      intro e he
      simp at he
      rcases he with rfl | rfl | rfl | rfl | rfl | rfl <;> rfl

theorem attemptCloseEvents_scrub (slippage : ℚ) (env : CloseEnv) (i : Nat) :
    attemptCloseEvents slippage (scrubEnv env) i = attemptCloseEvents slippage env i := by
  unfold attemptCloseEvents
  have hatt : (scrubEnv env).attempts i =
      (scrubPos (env.attempts i).1, scrubPos (env.attempts i).2) := rfl
  rw [hatt]
  congr 1
  · cases h : (env.attempts i).1 with
    | none => rfl
    | some p =>
      by_cases hg : jsGt0 p.size
      · simp only [scrubPos, hg, if_true]
        rw [closePosition_scrubEnv]
      · simp [scrubPos, hg]
  · cases h : (env.attempts i).2 with
    | none => rfl
    | some p =>
      by_cases hg : jsGt0 p.size
      · simp only [scrubPos, hg, if_true]
        rw [closePosition_scrubEnv]
      · simp [scrubPos, hg]

theorem closePositionsGo_scrub (slippage : ℚ) (symbol : String) (env : CloseEnv)
    (l : List Nat) :
    closePositionsGo slippage symbol (scrubEnv env) l =
      closePositionsGo slippage symbol env l := by
  induction l with
  | nil =>
    unfold closePositionsGo
    have e1 : posOpen (scrubEnv env).final.1 = posOpen env.final.1 := posOpen_scrubPos _
    have e2 : posOpen (scrubEnv env).final.2 = posOpen env.final.2 := posOpen_scrubPos _
    rw [e1, e2]
  | cons i rest ih =>
    unfold closePositionsGo
    have e1 : posOpen ((scrubEnv env).attempts i).1 = posOpen (env.attempts i).1 :=
      posOpen_scrubPos _
    have e2 : posOpen ((scrubEnv env).attempts i).2 = posOpen (env.attempts i).2 :=
      posOpen_scrubPos _
    rw [e1, e2, ih, attemptCloseEvents_scrub]

theorem closePositionsFullGo_bounds (slippage : ℚ) (symbol : String) (env : CloseEnvF)
    (l : List Nat) :
    queryCount (closePositionsFullGo slippage symbol env l).2 ≤ 2 * l.length + 2 ∧
    sleep1000Count (closePositionsFullGo slippage symbol env l).2 ≤ l.length := by
  induction l with
  | nil =>
    unfold closePositionsFullGo
    cases hf1 : env.finalFault1 with
    | some e => simp [queryCount, sleep1000Count, isPositionQuery, isSleepOf]
    | none =>
      cases hf2 : env.finalFault2 with
      | some e => simp [queryCount, sleep1000Count, isPositionQuery, isSleepOf]
      | none =>
        by_cases h1 : posOpen env.final.1
        · simp [h1, queryCount, sleep1000Count, isPositionQuery, isSleepOf]
        · by_cases h2 : posOpen env.final.2 <;>
            simp [h1, h2, queryCount, sleep1000Count, isPositionQuery, isSleepOf]
  | cons i rest ih =>
    rcases hgo : closePositionsFullGo slippage symbol env rest with ⟨r, tr⟩
    rw [hgo] at ih
    dsimp only at ih
    unfold closePositionsFullGo
    by_cases hq1 : env.fault1 i
    · rw [if_pos hq1]
      simp only [hgo]
      rw [queryCount_append, sleep1000Count_append]
      have e1 : queryCount [Event.getPosition .first symbol, Event.sleep 1000] = 1 := by
        simp [queryCount, isPositionQuery]
      have e2 : sleep1000Count [Event.getPosition .first symbol, Event.sleep 1000] = 1 := by
        simp [sleep1000Count, isSleepOf]
      rw [e1, e2]
      simp only [List.length_cons]
      omega
    · rw [if_neg hq1]
      by_cases hq2 : env.fault2 i
      · rw [if_pos hq2]
        simp only [hgo]
        rw [queryCount_append, sleep1000Count_append]
        have e1 : queryCount [Event.getPosition .first symbol,
            Event.getPosition .second symbol, Event.sleep 1000] = 2 := by
          simp [queryCount, isPositionQuery]
        have e2 : sleep1000Count [Event.getPosition .first symbol,
            Event.getPosition .second symbol, Event.sleep 1000] = 1 := by
          simp [sleep1000Count, isSleepOf]
        rw [e1, e2]
        simp only [List.length_cons]
        omega
      · rw [if_neg hq2]
        by_cases hc : ((if posOpen (env.attempts i).1 then 1 else 0) +
            (if posOpen (env.attempts i).2 then 1 else 0) = 0)
        · rw [if_pos hc]
          simp [queryCount, sleep1000Count, isPositionQuery, isSleepOf]
        · rw [if_neg hc]
          simp only [hgo]
          rw [queryCount_append, queryCount_append, queryCount_append,
            sleep1000Count_append, sleep1000Count_append, sleep1000Count_append,
            queryCount_attemptCloseEvents, sleep1000Count_attemptCloseEvents]
          have e1 : queryCount [Event.getPosition .first symbol,
              Event.getPosition .second symbol] = 2 := by
            simp [queryCount, isPositionQuery]
          have e2 : sleep1000Count [Event.getPosition .first symbol,
              Event.getPosition .second symbol] = 0 := by
            simp [sleep1000Count, isSleepOf]
          have e3 : queryCount [Event.sleep 1000] = 0 := by
            simp [queryCount, isPositionQuery]
          have e4 : sleep1000Count [Event.sleep 1000] = 1 := by
            simp [sleep1000Count, isSleepOf]
          rw [e1, e2, e3, e4]
          simp only [List.length_cons]
          omega

theorem closePositionsFullGo_ok_false_iff (slippage : ℚ) (symbol : String)
    (env : CloseEnvF) (l : List Nat) :
    (closePositionsFullGo slippage symbol env l).1 = Except.ok false ↔
      ((∀ i ∈ l, earlyAt env i = false) ∧ env.finalFault1 = none ∧
       env.finalFault2 = none ∧ finalOpen env.toCloseEnv = true) := by
  induction l with
  | nil =>
    unfold closePositionsFullGo
    cases hf1 : env.finalFault1 with
    | some e => simp [hf1]
    | none =>
      cases hf2 : env.finalFault2 with
      | some e => simp [hf1, hf2]
      | none =>
        by_cases h1 : posOpen env.final.1
        · simp [h1, hf1, hf2, finalOpen]
        · by_cases h2 : posOpen env.final.2 <;>
            simp [h1, h2, hf1, hf2, finalOpen]
  | cons i rest ih =>
    rcases hgo : closePositionsFullGo slippage symbol env rest with ⟨r, tr⟩
    rw [hgo] at ih
    dsimp only at ih
    unfold closePositionsFullGo
    by_cases hq1 : env.fault1 i
    · rw [if_pos hq1]
      simp only [hgo]
      have he : earlyAt env i = false := by simp [earlyAt, hq1]
      rw [ih]
      simp [List.forall_mem_cons, he]
    · rw [if_neg hq1]
      by_cases hq2 : env.fault2 i
      · rw [if_pos hq2]
        simp only [hgo]
        have he : earlyAt env i = false := by simp [earlyAt, hq2]
        rw [ih]
        simp [List.forall_mem_cons, he]
      · rw [if_neg hq2]
        by_cases hf : flatAt env.toCloseEnv i = true
        · have hc := (flatAt_iff_pushedCount env.toCloseEnv i).mpr hf
          rw [if_pos hc]
          have he : earlyAt env i = true := by
            simp [earlyAt, hq1, hq2, hf]
          simp [List.forall_mem_cons, he]
        · have hf' : flatAt env.toCloseEnv i = false := by
            revert hf; cases flatAt env.toCloseEnv i <;> simp
          have hc : ¬ ((if posOpen (env.attempts i).1 then 1 else 0) +
              (if posOpen (env.attempts i).2 then 1 else 0) = 0) := by
            intro h
            rw [(flatAt_iff_pushedCount env.toCloseEnv i).mp h] at hf'
            cases hf'
          rw [if_neg hc]
          simp only [hgo]
          have he : earlyAt env i = false := by simp [earlyAt, hf']
          rw [ih]
          simp [List.forall_mem_cons, he]

theorem closePositionsFullGo_error_iff (slippage : ℚ) (symbol : String)
    (env : CloseEnvF) (l : List Nat) (e : String) :
    (closePositionsFullGo slippage symbol env l).1 = Except.error e ↔
      ((∀ i ∈ l, earlyAt env i = false) ∧
       (env.finalFault1 = some e ∨
        (env.finalFault1 = none ∧ env.finalFault2 = some e))) := by
  induction l with
  | nil =>
    unfold closePositionsFullGo
    cases hf1 : env.finalFault1 with
    | some e2 => simp [hf1]
    | none =>
      cases hf2 : env.finalFault2 with
      | some e2 => simp [hf1, hf2]
      | none =>
        by_cases h1 : posOpen env.final.1
        · simp [h1, hf1, hf2]
        · by_cases h2 : posOpen env.final.2 <;> simp [h1, h2, hf1, hf2]
  | cons i rest ih =>
    rcases hgo : closePositionsFullGo slippage symbol env rest with ⟨r, tr⟩
    rw [hgo] at ih
    dsimp only at ih
    unfold closePositionsFullGo
    by_cases hq1 : env.fault1 i
    · rw [if_pos hq1]
      simp only [hgo]
      have he : earlyAt env i = false := by simp [earlyAt, hq1]
      rw [ih]
      simp [List.forall_mem_cons, he]
    · rw [if_neg hq1]
      by_cases hq2 : env.fault2 i
      · rw [if_pos hq2]
        simp only [hgo]
        have he : earlyAt env i = false := by simp [earlyAt, hq2]
        rw [ih]
        simp [List.forall_mem_cons, he]
      · rw [if_neg hq2]
        by_cases hf : flatAt env.toCloseEnv i = true
        · have hc := (flatAt_iff_pushedCount env.toCloseEnv i).mpr hf
          rw [if_pos hc]
          have he : earlyAt env i = true := by
            simp [earlyAt, hq1, hq2, hf]
          simp [List.forall_mem_cons, he]
        · have hf' : flatAt env.toCloseEnv i = false := by
            revert hf; cases flatAt env.toCloseEnv i <;> simp
          have hc : ¬ ((if posOpen (env.attempts i).1 then 1 else 0) +
              (if posOpen (env.attempts i).2 then 1 else 0) = 0) := by
            intro h
            rw [(flatAt_iff_pushedCount env.toCloseEnv i).mp h] at hf'
            cases hf'
          rw [if_neg hc]
          simp only [hgo]
          have he : earlyAt env i = false := by simp [earlyAt, hf']
          rw [ih]
          simp [List.forall_mem_cons, he]

theorem closePositionsFullGo_early (slippage : ℚ) (symbol : String) (env : CloseEnvF)
    (l : List Nat) :
    (∃ i ∈ l, earlyAt env i = true) →
      (closePositionsFullGo slippage symbol env l).1 = Except.ok true := by
  induction l with
  | nil =>
    rintro ⟨j, hj, _⟩
    simp at hj
  | cons i rest ih =>
    rintro ⟨j, hj, hje⟩
    unfold closePositionsFullGo
    by_cases hq1 : env.fault1 i
    · have hji : j ∈ rest := by
        rcases List.mem_cons.mp hj with rfl | hj'
        · exfalso; simp [earlyAt, hq1] at hje
        · exact hj'
      rcases hgo : closePositionsFullGo slippage symbol env rest with ⟨r, tr⟩
      rw [if_pos hq1]
      simp only [hgo]
      have hres := ih ⟨j, hji, hje⟩
      rw [hgo] at hres
      exact hres
    · rw [if_neg hq1]
      by_cases hq2 : env.fault2 i
      · have hji : j ∈ rest := by
          rcases List.mem_cons.mp hj with rfl | hj'
          · exfalso; simp [earlyAt, hq2] at hje
          · exact hj'
        rcases hgo : closePositionsFullGo slippage symbol env rest with ⟨r, tr⟩
        rw [if_pos hq2]
        simp only [hgo]
        have hres := ih ⟨j, hji, hje⟩
        rw [hgo] at hres
        exact hres
      · rw [if_neg hq2]
        by_cases hf : flatAt env.toCloseEnv i = true
        · have hc := (flatAt_iff_pushedCount env.toCloseEnv i).mpr hf
          rw [if_pos hc]
        · have hf' : flatAt env.toCloseEnv i = false := by
            revert hf; cases flatAt env.toCloseEnv i <;> simp
          have hji : j ∈ rest := by
            rcases List.mem_cons.mp hj with rfl | hj'
            · exfalso; rw [earlyAt, hf'] at hje; simp at hje
            · exact hj'
          have hc : ¬ ((if posOpen (env.attempts i).1 then 1 else 0) +
              (if posOpen (env.attempts i).2 then 1 else 0) = 0) := by
            intro h
            rw [(flatAt_iff_pushedCount env.toCloseEnv i).mp h] at hf'
            cases hf'
          rcases hgo : closePositionsFullGo slippage symbol env rest with ⟨r, tr⟩
          rw [if_neg hc]
          simp only [hgo]
          have hres := ih ⟨j, hji, hje⟩
          rw [hgo] at hres
          exact hres

theorem closePositionsFullGo_fault_free (slippage : ℚ) (symbol : String)
    (env : CloseEnvF) (h1 : ∀ i, env.fault1 i = false) (h2 : ∀ i, env.fault2 i = false)
    (hf1 : env.finalFault1 = none) (hf2 : env.finalFault2 = none) (l : List Nat) :
    closePositionsFullGo slippage symbol env l =
      (Except.ok (closePositionsGo slippage symbol env.toCloseEnv l).1,
       (closePositionsGo slippage symbol env.toCloseEnv l).2) := by
  induction l with
  | nil =>
    unfold closePositionsFullGo closePositionsGo
    rw [hf1, hf2]
    by_cases hp1 : posOpen env.final.1
    · simp [hp1]
    · by_cases hp2 : posOpen env.final.2 <;> simp [hp1, hp2]
  | cons i rest ih =>
    unfold closePositionsFullGo closePositionsGo
    rw [h1 i, h2 i]
    simp only [Bool.false_eq_true, if_false]
    by_cases hc : ((if posOpen (env.attempts i).1 then 1 else 0) +
        (if posOpen (env.attempts i).2 then 1 else 0) = 0)
    · rw [if_pos hc, if_pos hc]
    · rw [if_neg hc, if_neg hc]
      rcases hgo : closePositionsGo slippage symbol env.toCloseEnv rest with ⟨b, tr2⟩
      rw [hgo] at ih
      simp only [ih, hgo]

theorem closePositionsFull_fault_free (slippage : ℚ) (symbol : String)
    (env : CloseEnvF) (h1 : ∀ i, env.fault1 i = false) (h2 : ∀ i, env.fault2 i = false)
    (hf1 : env.finalFault1 = none) (hf2 : env.finalFault2 = none) :
    closePositionsFull slippage symbol env =
      (Except.ok (closePositions slippage symbol env.toCloseEnv).1,
       (closePositions slippage symbol env.toCloseEnv).2) :=
  closePositionsFullGo_fault_free slippage symbol env h1 h2 hf1 hf2 [0, 1, 2, 3, 4]

/-! ## C2, C3, C10 -/

/-- C2: refuted as stated.  The claim says that after the close attempts
`closePositions` always re-queries both venues and returns false iff that
final re-query reports a nonzero-size position.  In this remote state the
very first attempt finds both venues flat, so the function returns `true`
immediately after a single pair of queries (`queryCount = 2`, not the 12 of
a full run) — no final verification happens — even though a re-query would
have reported an open nonzero-size position on the first venue. -/
theorem C2_counterexample :
    (closePositions 1 "ETH" earlyFlatCloseEnv).1 = true ∧
    posOpen earlyFlatCloseEnv.final.1 = true ∧
    queryCount (closePositions 1 "ETH" earlyFlatCloseEnv).2 = 2 := by
  refine ⟨by decide, by decide, by decide⟩

/-- C2 (amended): over the model with exchange-call faults
(`closePositionsFull`): at most 12 position queries and at most 5 fixed
1-second sleeps occur; an attempt whose two position queries succeed and
find no venue with an open (positive-parsed-size) position makes the
function return `true` immediately, without the final re-query; the
function resolves `false` iff no attempt early-returned that way, both
final-verification queries succeed, and at least one of them reports an
open position; and it throws iff no attempt early-returned and a
final-verification query fault propagates (the error being that query's
own — the final re-query sits outside the `try`) — in particular it never
throws to signal a still-open position. -/
theorem C2_closePositions_amended (slippage : ℚ) (symbol : String) (env : CloseEnvF) :
    queryCount (closePositionsFull slippage symbol env).2 ≤ 12 ∧
    sleep1000Count (closePositionsFull slippage symbol env).2 ≤ 5 ∧
    ((∃ i, i < 5 ∧ earlyAt env i = true) →
      (closePositionsFull slippage symbol env).1 = Except.ok true) ∧
    ((closePositionsFull slippage symbol env).1 = Except.ok false ↔
      ((∀ i, i < 5 → earlyAt env i = false) ∧ env.finalFault1 = none ∧
       env.finalFault2 = none ∧ finalOpen env.toCloseEnv = true)) ∧
    (∀ e, (closePositionsFull slippage symbol env).1 = Except.error e ↔
      ((∀ i, i < 5 → earlyAt env i = false) ∧
       (env.finalFault1 = some e ∨
        (env.finalFault1 = none ∧ env.finalFault2 = some e)))) := by
  have hb := closePositionsFullGo_bounds slippage symbol env [0, 1, 2, 3, 4]
  have hok := closePositionsFullGo_ok_false_iff slippage symbol env [0, 1, 2, 3, 4]
  have hearly := closePositionsFullGo_early slippage symbol env [0, 1, 2, 3, 4]
  have hmem : ∀ i : Nat, i ∈ ([0, 1, 2, 3, 4] : List Nat) ↔ i < 5 := by
    intro i
    simp only [List.mem_cons, List.not_mem_nil, or_false]
    omega
  refine ⟨?_, ?_, ?_, ?_, ?_⟩
  · simpa using hb.1
  · simpa using hb.2
  · rintro ⟨i, hi, hei⟩
    exact hearly ⟨i, (hmem i).mpr hi, hei⟩
  · rw [show closePositionsFull slippage symbol env =
        closePositionsFullGo slippage symbol env [0, 1, 2, 3, 4] from rfl, hok]
    constructor
    · rintro ⟨hall, h⟩
      exact ⟨fun i hi => hall i ((hmem i).mpr hi), h⟩
    · rintro ⟨hall, h⟩
      exact ⟨fun i hi => hall i ((hmem i).mp hi), h⟩
  · intro e
    have herr := closePositionsFullGo_error_iff slippage symbol env [0, 1, 2, 3, 4] e
    rw [show closePositionsFull slippage symbol env =
        closePositionsFullGo slippage symbol env [0, 1, 2, 3, 4] from rfl, herr]
    constructor
    · rintro ⟨hall, h⟩
      exact ⟨fun i hi => hall i ((hmem i).mpr hi), h⟩
    · rintro ⟨hall, h⟩
      exact ⟨fun i hi => hall i ((hmem i).mp hi), h⟩

/-- Witness for C2 (amended) at two faulty remote states: with every
attempt's first query rejecting (each caught) and a clean final re-query
that reports an open position, the call resolves `false` after only 7
position queries; with clean attempts and the final verification's first
query rejecting, the call propagates exactly that error. -/
theorem C2_closePositions_amended_witness :
    (closePositionsFull 1 "ETH" allFaultCloseEnv).1 = Except.ok false ∧
    queryCount (closePositionsFull 1 "ETH" allFaultCloseEnv).2 = 7 ∧
    (closePositionsFull 1 "ETH" finalFaultCloseEnv).1 = Except.error "network down" := by
  have h1 := C2_closePositions_amended 1 "ETH" allFaultCloseEnv
  have h2 := C2_closePositions_amended 1 "ETH" finalFaultCloseEnv
  refine ⟨h1.2.2.2.1.mpr ⟨?_, rfl, rfl, by decide⟩, by decide,
    (h2.2.2.2.2 "network down").mpr ⟨?_, Or.inl rfl⟩⟩
  · intro i _
    rfl
  · intro i _
    rfl

/-- C3: within one `closePositions` attempt, the venues that get a close
order are exactly those whose queried position is present with a parsed
size strictly greater than 0 (in particular a close order is submitted
only for a venue reporting a nonzero size); and when the first attempt
finds both venues flat, the function returns true immediately, with zero
order submissions and only that attempt's two position queries. -/
theorem C3_close_only_open_venues (slippage : ℚ) (symbol : String) (env : CloseEnv)
    (i : Nat) :
    orderVenues (attemptCloseEvents slippage env i) =
      ((if posOpen (env.attempts i).1 then [Venue.first] else []) ++
       (if posOpen (env.attempts i).2 then [Venue.second] else [])) ∧
    (flatAt env 0 = true →
      (closePositions slippage symbol env).1 = true ∧
      orderCount (closePositions slippage symbol env).2 = 0 ∧
      queryCount (closePositions slippage symbol env).2 = 2) := by
  constructor
  · exact orderVenues_attemptCloseEvents slippage env i
  · intro hf
    have hc := (flatAt_iff_pushedCount env 0).mpr hf
    rw [show closePositions slippage symbol env =
        closePositionsGo slippage symbol env [0, 1, 2, 3, 4] from rfl]
    unfold closePositionsGo
    rw [if_pos hc]
    refine ⟨rfl, ?_, ?_⟩
    · simp [orderCount, isOrderEvent]
    · simp [queryCount, isPositionQuery]

/-- Witness for C3 at the spec's end-to-end scenario (first venue size
`"0"`, second venue size `"1.5"`): exactly one close order, on the second
venue; and at an all-flat remote state: immediate true, no orders, two
queries. -/
theorem C3_close_only_open_venues_witness :
    orderVenues (attemptCloseEvents 1 ethExampleCloseEnv 0) = [Venue.second] ∧
    (closePositions 1 "ETH" ethExampleCloseEnv).1 = true ∧
    (closePositions 1 "ETH" flatCloseEnv).1 = true ∧
    orderCount (closePositions 1 "ETH" flatCloseEnv).2 = 0 ∧
    queryCount (closePositions 1 "ETH" flatCloseEnv).2 = 2 := by
  have h1 := (C3_close_only_open_venues 1 "ETH" ethExampleCloseEnv 0).1
  have h2 := (C3_close_only_open_venues 1 "ETH" flatCloseEnv 0).2 (by decide)
  refine ⟨?_, ?_, h2.1, h2.2.1, h2.2.2⟩
  · rw [h1]
    norm_num [ethExampleCloseEnv, posOpen, jsGt0, zeroPosEth, pos15Eth]
  · norm_num [closePositions, closePositionsGo, ethExampleCloseEnv, posOpen, jsGt0,
      zeroPosEth, pos15Eth]

/-- C10: a reported position whose size does not parse to a number
strictly greater than 0 (a NaN size from a non-numeric string, a zero or a
negative size) behaves exactly like an absent position throughout
`closePositions`: replacing every such position by an absent one (`scrubEnv`)
changes neither the returned boolean nor the trace — so no close order is
submitted for such a venue and such a position at the final verification
does not cause a false return. -/
theorem C10_nonpositive_size_like_absent (slippage : ℚ) (symbol : String)
    (env : CloseEnv) :
    closePositions slippage symbol (scrubEnv env) = closePositions slippage symbol env :=
  closePositionsGo_scrub slippage symbol env [0, 1, 2, 3, 4]

/-! ## C4, C6, C8 -/

theorem tradingEvents_append (l1 l2 : List Event) :
    tradingEvents (l1 ++ l2) = tradingEvents l1 ++ tradingEvents l2 := by
  unfold tradingEvents; exact List.filter_append _ _

theorem storeEvents_append (l1 l2 : List Event) :
    storeEvents (l1 ++ l2) = storeEvents l1 ++ storeEvents l2 := by
  unfold storeEvents; exact List.filter_append _ _

theorem tradingEvents_eq_self_of (tr : List Event) (h : noStoreTrace tr) :
    tradingEvents tr = tr := by
  unfold tradingEvents
  rw [List.filter_eq_self]
  intro a ha
  simp [h a ha]

theorem storeEvents_eq_nil_of (tr : List Event) (h : noStoreTrace tr) :
    storeEvents tr = [] := by
  unfold storeEvents
  rw [List.filter_eq_nil_iff]
  intro a ha
  simp [h a ha]

theorem tradingEvents_nil : tradingEvents [] = [] := rfl

theorem storeEvents_nil : storeEvents [] = [] := rfl

theorem tradingEvents_storeCreate (id : Nat) (sym : String) (tr : List Event) :
    tradingEvents (Event.storeCreate id sym :: tr) = tradingEvents tr := rfl

theorem tradingEvents_storeUpdate (id : Nat) (tr : List Event) :
    tradingEvents (Event.storeUpdate id :: tr) = tradingEvents tr := rfl

theorem storeEvents_storeCreate (id : Nat) (sym : String) (tr : List Event) :
    storeEvents (Event.storeCreate id sym :: tr) =
      Event.storeCreate id sym :: storeEvents tr := rfl

theorem storeEvents_storeUpdate (id : Nat) (tr : List Event) :
    storeEvents (Event.storeUpdate id :: tr) =
      Event.storeUpdate id :: storeEvents tr := rfl

/-- C4: with the first exchange's last-trade price parsing to `q` — the
only price the sizing reads — and any USD notional `s`: if `q > 0` the
derived quantity is exactly `s / q` rounded to 6 decimal places in nearest
mode (an integer multiple of `10⁻⁶` within `5·10⁻⁷` of `s / q`), both legs
are submitted with that same quantity; if `q ≤ 0` the derivation throws
`Invalid price ...` and (for any positive notional) `placeMarketOrder`
propagates the error having submitted no order on either exchange. -/
theorem C4_quantity_derivation (cfg : HedgeConfig) (env : MarketEnv) (symbol : String)
    (sizeUSD q : ℚ) (fs ss : OrderSide)
    (hq : env.tickers .first symbol = some q) :
    (0 < q →
      calculateQuantityFromUSD symbol sizeUSD (some q) =
        Except.ok (some (toFixed6q (sizeUSD / q))) ∧
      |sizeUSD / q - toFixed6q (sizeUSD / q)| ≤ 1 / 2000000 ∧
      (∃ n : ℤ, toFixed6q (sizeUSD / q) = (n : ℚ) / 1000000) ∧
      (0 < sizeUSD →
        ∃ r1 r2, (placeMarketOrder cfg env symbol sizeUSD fs ss).1 = Except.ok (r1, r2) ∧
          r1.quantity = some (toFixed6q (sizeUSD / q)) ∧ r2.quantity = r1.quantity)) ∧
    (q ≤ 0 →
      calculateQuantityFromUSD symbol sizeUSD (some q) =
        Except.error ("Invalid price for " ++ symbol) ∧
      (0 < sizeUSD →
        (placeMarketOrder cfg env symbol sizeUSD fs ss).1 =
          Except.error ("Invalid price for " ++ symbol) ∧
        orderCount (placeMarketOrder cfg env symbol sizeUSD fs ss).2 = 0)) := by
  constructor
  · intro hpos
    have hle : jsLe0 (some q) = false := by
      simp [jsLe0, not_le.mpr hpos]
    have hne : q ≠ 0 := ne_of_gt hpos
    have hcalc : calculateQuantityFromUSD symbol sizeUSD (some q) =
        Except.ok (some (toFixed6q (sizeUSD / q))) := by
      unfold calculateQuantityFromUSD
      rw [hle]
      simp [jsDiv, hne, toFixed6]
    refine ⟨hcalc, ?_, ⟨round ((sizeUSD / q) * 1000000), rfl⟩, ?_⟩
    · have hr := abs_sub_round ((sizeUSD / q) * 1000000)
      have hkey : sizeUSD / q - toFixed6q (sizeUSD / q) =
          ((sizeUSD / q) * 1000000 - ((round ((sizeUSD / q) * 1000000) : ℤ) : ℚ)) / 1000000 := by
        unfold toFixed6q
        ring
      rw [hkey, abs_div, abs_of_pos (by norm_num : (0:ℚ) < 1000000)]
      calc |(sizeUSD / q) * 1000000 - ((round ((sizeUSD / q) * 1000000) : ℤ) : ℚ)| / 1000000
          ≤ (1 / 2) / 1000000 := by gcongr
        _ = 1 / 2000000 := by norm_num
    · intro hs
      unfold placeMarketOrder
      rw [if_neg (not_le.mpr hs), hq, hcalc]
      exact ⟨_, _, rfl, rfl, rfl⟩
  · intro hle0
    have hle : jsLe0 (some q) = true := by
      simp [jsLe0, hle0]
    have hcalc : calculateQuantityFromUSD symbol sizeUSD (some q) =
        Except.error ("Invalid price for " ++ symbol) := by
      unfold calculateQuantityFromUSD
      rw [hle]
      simp
    refine ⟨hcalc, ?_⟩
    intro hs
    unfold placeMarketOrder
    rw [if_neg (not_le.mpr hs), hq, hcalc]
    exact ⟨rfl, by simp [orderCount, isOrderEvent]⟩

/-- Witness for C4 at the spec's end-to-end scenario (`sizeUSD = 500`,
first-venue last price `50000`, derived quantity `0.01`) and at a
non-positive price (`-1`). -/
theorem C4_quantity_derivation_witness :
    (∃ r1 r2,
      (placeMarketOrder DEFAULT_HEDGE_CONFIG btcMarketEnv "BTC" 500 .buy .sell).1 =
        Except.ok (r1, r2) ∧
      r1.quantity = some (toFixed6q (500 / 50000)) ∧ r2.quantity = r1.quantity) ∧
    toFixed6q (500 / 50000) = 1 / 100 ∧
    (placeMarketOrder DEFAULT_HEDGE_CONFIG badPriceMarketEnv "BTC" 500 .buy .sell).1 =
      Except.error ("Invalid price for " ++ "BTC") ∧
    orderCount (placeMarketOrder DEFAULT_HEDGE_CONFIG badPriceMarketEnv "BTC" 500 .buy .sell).2 = 0 := by
  have hpos := (C4_quantity_derivation DEFAULT_HEDGE_CONFIG btcMarketEnv "BTC" 500 50000
    .buy .sell rfl).1 (by norm_num)
  have hneg := (C4_quantity_derivation DEFAULT_HEDGE_CONFIG badPriceMarketEnv "BTC" 500 (-1)
    .buy .sell rfl).2 (by norm_num)
  refine ⟨hpos.2.2.2 (by norm_num), ?_, (hneg.2 (by norm_num)).1, (hneg.2 (by norm_num)).2⟩
  unfold toFixed6q
  norm_num [round_eq]

/-- C6: refuted on the code (the claim — backed by the source comment
"always sleep for a small amount of time to avoid busy-waiting" — says
every loop iteration ends with an unconditional fixed 1-second suspension
regardless of path).  On the path where the pre-open `closePositions`
sweep fails, the iteration ends via `continue`, which in JS skips the rest
of the loop body including the trailing `await sleep(1000)`: the
iteration's last awaited action is the sweep's final verification query,
not a sleep.  By contrast, on the caught-exception path the trailing
1-second sleep does run, as the claim says. -/
theorem C6_pre_open_continue_skips_trailing_sleep :
    (runIteration DEFAULT_HEDGE_CONFIG ["ETH"] preCloseFailIterEnv).1 =
      IterOutcome.continuedPreClose ∧
    (runIteration DEFAULT_HEDGE_CONFIG ["ETH"] preCloseFailIterEnv).2.getLast? =
      some (Event.getPosition Venue.second "ETH") ∧
    (runIteration DEFAULT_HEDGE_CONFIG ["ETH"] caughtErrorIterEnv).1 =
      IterOutcome.caughtError ∧
    (runIteration DEFAULT_HEDGE_CONFIG ["ETH"] caughtErrorIterEnv).2.getLast? =
      some (Event.sleep 1000) := by
  refine ⟨by decide, by decide, by decide, by decide⟩

/-- C8 (spec-modelled Trade Record Store integration): the presence of the
store changes only the store-call events of a hedge cycle, never its
trading events; with no store there are no store calls at all; with a
store present, the cycle creates a record exactly when the open leg
placement succeeded and additionally updates/closes it exactly when the
close sweep reported success. -/
theorem C8_trade_record_store (store : Nat) (cfg : HedgeConfig) (menv : MarketEnv)
    (cenv : CloseEnv) (symbol : String) (sizeUSD : ℚ) (fs ss : OrderSide) :
    tradingEvents (hedgeCycleWithStore (some store) cfg menv cenv symbol sizeUSD fs ss) =
      tradingEvents (hedgeCycleWithStore none cfg menv cenv symbol sizeUSD fs ss) ∧
    storeEvents (hedgeCycleWithStore none cfg menv cenv symbol sizeUSD fs ss) = [] ∧
    storeEvents (hedgeCycleWithStore (some store) cfg menv cenv symbol sizeUSD fs ss) =
      (if isOk (placeMarketOrder cfg menv symbol sizeUSD fs ss).1 then
        Event.storeCreate store symbol ::
          (if (closePositions cfg.slippage symbol cenv).1 then [Event.storeUpdate store]
           else [])
       else []) := by
  rcases hp : placeMarketOrder cfg menv symbol sizeUSD fs ss with ⟨res, orderTrace⟩
  have hpns : noStoreTrace orderTrace := by
    have h := noStore_placeMarketOrder cfg menv symbol sizeUSD fs ss
    rw [hp] at h
    exact h
  rcases hcl : closePositions cfg.slippage symbol cenv with ⟨closed, closeTrace⟩
  have hcns : noStoreTrace closeTrace := by
    have h := noStore_closePositions cfg.slippage symbol cenv
    rw [hcl] at h
    exact h
  unfold hedgeCycleWithStore
  rw [hp, hcl]
  dsimp only
  have h1 := storeEvents_eq_nil_of _ hpns
  have h2 := storeEvents_eq_nil_of _ hcns
  have h3 := tradingEvents_eq_self_of _ hpns
  have h4 := tradingEvents_eq_self_of _ hcns
  cases res with
  | error e =>
    dsimp only [isOk]
    refine ⟨rfl, h1, ?_⟩
    simp [h1]
  | ok pair =>
    dsimp only [isOk]
    cases closed with
    | false =>
      refine ⟨?_, ?_, ?_⟩ <;>
        simp [tradingEvents_append, storeEvents_append, h1, h2, h3, h4,
          tradingEvents_nil, storeEvents_nil, tradingEvents_storeCreate,
          tradingEvents_storeUpdate, storeEvents_storeCreate, storeEvents_storeUpdate]
    | true =>
      refine ⟨?_, ?_, ?_⟩ <;>
        simp [tradingEvents_append, storeEvents_append, h1, h2, h3, h4,
          tradingEvents_nil, storeEvents_nil, tradingEvents_storeCreate,
          tradingEvents_storeUpdate, storeEvents_storeCreate, storeEvents_storeUpdate]
